import Mathlib

/-!
Verification of the Sentry→Gemini fix agent
(`src/books_project/sentry_gemini_fix_agent.py`).

The agent pulls unresolved issues from an error tracker, localizes the
fault from the stack trace of the latest event, asks a text model for a
replacement file, and opens a pull request.  This file shallowly embeds
the Python module: Python strings become `List Char`, JSON-like payloads
become the inductive `JVal`, Python exceptions become the `Except PyExc`
monad, and the external services (Sentry HTTP, GitHub, Gemini) become
explicit function-valued parameters.
-/

/-! ## Python strings -/

/-- A Python string, modelled as its list of characters. -/
abbrev PyStr := List Char

/-- Conversion from a Lean string literal to the `List Char` model. -/
def pstr (s : String) : PyStr := s.data

/-- Python `str.startswith`: `startsWith pat s` is true when `pat` is an
initial segment of `s`. -/
def startsWith : PyStr → PyStr → Bool
  | [], _ => true
  | _ :: _, [] => false
  | p :: ps, c :: cs => p == c && startsWith ps cs

/-- Python `str.endswith`, via reversal. -/
def endsWith (pat s : PyStr) : Bool :=
  startsWith pat.reverse s.reverse

/-- The characters stripped by Python `str.strip()` with no argument:
CPython's `str.isspace` set — the ASCII whitespace and separator
controls plus every Unicode whitespace code point (category Zs and the
Zl/Zp line and paragraph separators). -/
def isPySpace (c : Char) : Bool :=
  let n := c.toNat
  (9 ≤ n && n ≤ 13) || (28 ≤ n && n ≤ 31) || n == 32 || n == 0x85
    || n == 0xA0 || n == 0x1680 || (0x2000 ≤ n && n ≤ 0x200A)
    || n == 0x2028 || n == 0x2029 || n == 0x202F || n == 0x205F || n == 0x3000

/-- Python `str.strip()`: drop whitespace from both ends. -/
def pyStrip (s : PyStr) : PyStr :=
  ((s.dropWhile isPySpace).reverse.dropWhile isPySpace).reverse

/-- Fuelled worker for `pySplit`.  Scans the subject left to right; each
time the (nonempty) separator `d :: ds` is an initial segment, a chunk
boundary is emitted and the separator's characters are skipped.  The fuel
strictly exceeds the subject's length at every call, so the base case is
never reached from `pySplit`. -/
def pySplitF (d : Char) (ds : PyStr) : Nat → PyStr → List PyStr
  | 0, s => [s]
  | fuel + 1, s =>
    if startsWith (d :: ds) s then
      [] :: pySplitF d ds fuel (s.drop (ds.length + 1))
    else
      match s with
      | [] => [[]]
      | c :: rest =>
        match pySplitF d ds fuel rest with
        | [] => [[c]]
        | p :: ps => (c :: p) :: ps

/-- Python `s.split(sep)` for a nonempty separator: splits at every
non-overlapping occurrence, left to right.  (Python raises on an empty
separator; the agent only ever splits on the two literal markers.) -/
def pySplit (sep s : PyStr) : List PyStr :=
  match sep with
  | [] => [s]
  | d :: ds => pySplitF d ds (s.length + 1) s

/-- Whether `sep` occurs as a contiguous substring of `s`. -/
def containsSub (sep : PyStr) : PyStr → Bool
  | [] => startsWith sep []
  | c :: rest => startsWith sep (c :: rest) || containsSub sep rest

/-- `noChar c s`: the character `c` does not occur in `s`. -/
def noChar (c : Char) (s : PyStr) : Bool :=
  s.all (fun x => x != c)

/-- `hasOccWithin sep s n`: some occurrence of `sep` starts at an index
strictly below `n` in `s`.  `hasOccWithin sep s s.length = false` says
`sep` does not occur at all; `hasOccWithin sep (a ++ sep ++ t) a.length
= false` says the visible occurrence at position `a.length` is the
first one. -/
def hasOccWithin (sep : PyStr) : PyStr → Nat → Bool
  | _, 0 => false
  | s, n + 1 =>
    startsWith sep s ||
    match s with
    | [] => false
    | _ :: rest => hasOccWithin sep rest n

/-- Two strings agree on their common initial segment (one would extend
the other as far as both are defined). -/
def agreesUpTo : PyStr → PyStr → Bool
  | [], _ => true
  | _ :: _, [] => true
  | a :: as, b :: bs => a == b && agreesUpTo as bs

/-! ## Python exceptions and JSON-like payloads -/

/-- The Python exceptions the agent can raise or observe. -/
inductive PyExc where
  | indexError
  | attrError
  | typeError
  | keyError
  | httpError
  | githubError
  | genericError
deriving DecidableEq

/-- A JSON-like Python value, as returned by `response.json()`. -/
inductive JVal where
  | jnull : JVal
  | jstr : String → JVal
  | jnum : Int → JVal
  | jlist : List JVal → JVal
  | jobj : List (String × JVal) → JVal

/-- Python truthiness test (`if not x`): `None`, `0`, and the empty
string, list, or dict are falsy. -/
def pyFalsy : JVal → Bool
  | .jnull => true
  | .jstr s => s == ""
  | .jnum n => n == 0
  | .jlist l => l.isEmpty
  | .jobj l => l.isEmpty

/-- Python `d.get(key, default)`: on a dict, the stored value or the
default; on any non-dict it raises `AttributeError`. -/
def JVal.get (v : JVal) (key : String) (dflt : JVal) : Except PyExc JVal :=
  match v with
  | .jobj kvs =>
    .ok (match kvs.find? (fun p => p.1 == key) with
         | some p => p.2
         | none => dflt)
  | _ => .error .attrError

/-- Python one-argument `d.get(key)`: the default is `None`. -/
def JVal.oneGet (v : JVal) (key : String) : Except PyExc JVal :=
  v.get key .jnull

/-- Python `d[key]` on a dict: `KeyError` when missing, `TypeError` when
the subject is not a dict. -/
def JVal.subscript (v : JVal) (key : String) : Except PyExc JVal :=
  match v with
  | .jobj kvs =>
    match kvs.find? (fun p => p.1 == key) with
    | some p => .ok p.2
    | none => .error .keyError
  | _ => .error .typeError

/-- Python `x[i]` with an integer index on a list (negative indices count
from the end, out of range raises `IndexError`); indexing a string yields
a one-character string; other subjects raise `TypeError`. -/
def JVal.index (v : JVal) (i : Int) : Except PyExc JVal :=
  match v with
  | .jlist xs =>
    let j : Int := if i < 0 then i + xs.length else i
    if j < 0 then .error .indexError
    else
      match xs[j.toNat]? with
      | some x => .ok x
      | none => .error .indexError
  | .jstr s =>
    let j : Int := if i < 0 then i + s.length else i
    if j < 0 then .error .indexError
    else
      match s.data[j.toNat]? with
      | some c => .ok (.jstr (String.mk [c]))
      | none => .error .indexError
  | _ => .error .typeError

/-- Python `str(x)` for the payload values the agent interpolates into
f-strings (atoms; containers are rendered recursively, with the string
escaping of `repr` elided since the agent never hits it). -/
def pyStrOf : JVal → PyStr
  | .jnull => pstr "None"
  | .jstr s => pstr s
  | .jnum n => pstr (toString n)
  | .jlist xs => pstr "[" ++ pyReprList xs ++ pstr "]"
  | .jobj kvs => pstr "\x7b" ++ pyReprObj kvs ++ pstr "\x7d"
where
  pyReprList : List JVal → PyStr
    | [] => []
    | [x] => pyStrOf x
    | x :: y :: rest => pyStrOf x ++ pstr ", " ++ pyReprList (y :: rest)
  pyReprObj : List (String × JVal) → PyStr
    | [] => []
    | [p] => pstr "'" ++ pstr p.1 ++ pstr "': " ++ pyStrOf p.2
    | p :: q :: rest =>
      pstr "'" ++ pstr p.1 ++ pstr "': " ++ pyStrOf p.2 ++ pstr ", " ++ pyReprObj (q :: rest)

/-- Python `sep.join(x)`: accepts a list of strings (a non-string element
raises `TypeError`), a string (joins its characters), or a dict (joins
its keys); other subjects raise `TypeError`. -/
def pyJoin (sep : PyStr) (v : JVal) : Except PyExc PyStr :=
  match v with
  | .jlist xs => do
    let items ← xs.mapM (fun x =>
      match x with
      | .jstr s => Except.ok (pstr s)
      | _ => Except.error PyExc.typeError)
    pure (List.intercalate sep items)
  | .jstr s => .ok (List.intercalate sep (s.data.map (fun c => [c])))
  | .jobj kvs => .ok (List.intercalate sep (kvs.map (fun p => pstr p.1)))
  | _ => .error .typeError

/-! ## The context extractor (`extract_stack_context`, lines 75–99) -/

/-- The dict built by `extract_stack_context` (its six keys). -/
structure StackContext where
  file_path : JVal
  line_number : JVal
  context_line : JVal
  pre_context : JVal
  post_context : JVal
  function : JVal

/-- The chained navigation of line 77:
`event_data.get('entries', [])[0].get('data', {}).get('values', [])[0].get('stacktrace', {}).get('frames', [])`. -/
def framesOfEvent (event_data : JVal) : Except PyExc JVal := do
  let entries ← event_data.get "entries" (.jlist [])
  let e0 ← entries.index 0
  let data ← e0.get "data" (.jobj [])
  let values ← data.get "values" (.jlist [])
  let v0 ← values.index 0
  let st ← v0.get "stacktrace" (.jobj [])
  st.get "frames" (.jlist [])

/-- `extract_stack_context(event_data)`: returns the pair
`(context dict, file_path)`, or `(None, None)` (here `none`) when the
frame list is falsy; exceptions raised by the navigation propagate. -/
def extract_stack_context (event_data : JVal) :
    Except PyExc (Option (StackContext × JVal)) := do
  let frames ← framesOfEvent event_data
  if pyFalsy frames then
    return none
  else do
    let relevant_frame ← frames.index (-1)
    let file_path ← relevant_frame.oneGet "filename"
    let line_number ← relevant_frame.oneGet "lineno"
    let context_lines ← relevant_frame.get "context_line" (.jstr "")
    let pre_context ← relevant_frame.get "pre_context" (.jlist [])
    let post_context ← relevant_frame.get "post_context" (.jlist [])
    let function_name ← relevant_frame.get "function" (.jstr "")
    return some (⟨file_path, line_number, context_lines, pre_context,
                  post_context, function_name⟩, file_path)

/-! ## Code store access (`get_file_content`, lines 64–73) -/

/-- `get_file_content(file_path)`: the call
`github_client.get_repo(GITHUB_REPO)` at line 66 runs OUTSIDE the `try`,
so a failure there (network, auth, bad repository name) propagates out
of the function; only the guarded read (`repo.get_contents` + base64
decode, the repo's read function here) sits in the
`try/except Exception`, whose any failure yields `(None, None)`. -/
def get_file_content
    (getRepo : Except PyExc (JVal → Except PyExc (String × String)))
    (file_path : JVal) : Except PyExc (Option String × Option String) :=
  match getRepo with
  | .error e => .error e
  | .ok readContents =>
    match readContents file_path with
    | .ok (content, sha) => .ok (some content, some sha)
    | .error _ => .ok (none, none)

/-! ## The fix generator (`create_ai_fix`, lines 101–179) -/

/-- The parsed reply: explanation text and replacement file body. -/
structure FixResult where
  explanation : PyStr
  fixed_code : PyStr

/-- The literal section marker `EXPLANATION:`. -/
def explanationMarker : PyStr := pstr "EXPLANATION:"

/-- The literal section marker `FIXED_CODE:`. -/
def fixedCodeMarker : PyStr := pstr "FIXED_CODE:"

/-- Lines 162–167: strip a leading ```` ```python ```` fence (the slice
`[10:]` also eats the character after the tag), a leading ```` ``` ````
fence, and a trailing ```` ``` ```` fence, re-stripping whitespace after
each removal. -/
def stripCodeFences (fc : PyStr) : PyStr :=
  let f1 := if startsWith (pstr "```python") fc then pyStrip (fc.drop 10) else fc
  let f2 := if startsWith (pstr "```") f1 then pyStrip (f1.drop 3) else f1
  if endsWith (pstr "```") f2 then pyStrip (f2.take (f2.length - 3)) else f2

/-- Lines 157–172, the inner `try`: split on the two markers; a missing
marker makes the `[1]` subscript raise `IndexError`, which the inner
`except` turns into `None` (here `none`). -/
def parseFixReply (ai_response : PyStr) : Option FixResult :=
  match (pySplit explanationMarker ai_response)[1]? with
  | none => none
  | some seg1 =>
    match (pySplit fixedCodeMarker seg1)[0]? with
    | none => none
    | some expl0 =>
      let explanation := pyStrip expl0
      match (pySplit fixedCodeMarker ai_response)[1]? with
      | none => none
      | some fc0 =>
        let fixed_code := stripCodeFences (pyStrip fc0)
        some ⟨explanation, fixed_code⟩

/-- The prompt template of lines 110–150 (an f-string; the interpolated
values are passed in already joined/stringified). -/
def buildPrompt (error_message : JVal) (file_content : String)
    (context_info : StackContext) (pre_context_text post_context_text : PyStr) : PyStr :=
  pstr "\n    You are an expert Python developer tasked with fixing a bug in a codebase.\n    \n    ERROR MESSAGE:\n    "
    ++ pyStrOf error_message
    ++ pstr "\n    \n    FILE: " ++ pyStrOf context_info.file_path
    ++ pstr "\n    FUNCTION: " ++ pyStrOf context_info.function
    ++ pstr "\n    LINE NUMBER: " ++ pyStrOf context_info.line_number
    ++ pstr "\n    \n    Here's the context of the error:\n    \n    Pre-context lines:\n    ```\n    "
    ++ pre_context_text
    ++ pstr "\n    ```\n    \n    Line with error:\n    ```\n    "
    ++ pyStrOf context_info.context_line
    ++ pstr "\n    ```\n    \n    Post-context lines:\n    ```\n    "
    ++ post_context_text
    ++ pstr "\n    ```\n    \n    Here's the full file content:\n    ```python\n    "
    ++ pstr file_content
    ++ pstr "\n    ```\n    \n    Please provide a fix for this issue. Explain what's causing the error and provide the corrected code.\n    Return your response in the following format:\n    \n    EXPLANATION:\n    [Explanation of the issue and your fix]\n    \n    FIXED_CODE:\n    [The entire fixed file with your changes]\n    "

/-- `create_ai_fix(error_message, file_content, context_info)`: the
falsy-argument guard, the two `\n`-joins (outside any `try`, so a raise
propagates), one model invocation (`modelGen`, the Gemini call), and the
marker parse.  The outer `try` turns a model-call failure into `None`;
the context dict built by the extractor has six keys and is always
truthy, so only `file_content` decides the guard. -/
def create_ai_fix (modelGen : PyStr → Except PyExc PyStr)
    (error_message : JVal) (file_content : String)
    (context_info : StackContext) : Except PyExc (Option FixResult) := do
  if file_content = "" then
    return none
  else do
    let pre_context_text ← pyJoin (pstr "\n") context_info.pre_context
    let post_context_text ← pyJoin (pstr "\n") context_info.post_context
    let prompt := buildPrompt error_message file_content context_info
      pre_context_text post_context_text
    match modelGen prompt with
    | .error _ => pure none
    | .ok ai_response => pure (parseFixReply ai_response)

/-! ## The publisher (`create_github_pr`, lines 181–230) -/

/-- The GitHub operations the publisher performs, as injected effects
(PyGithub calls; each may raise). -/
structure GitEnv where
  default_branch : PyStr
  refSha : PyStr → Except PyExc PyStr
  createRef : PyStr → PyStr → Except PyExc Unit
  updateFile : JVal → PyStr → PyStr → Option String → PyStr → Except PyExc Unit
  createPull : PyStr → PyStr → PyStr → PyStr → Except PyExc PyStr

/-- The dict literal `{"id": ..., "title": ..., "permalink": ...}` that
`process_issues` passes as `issue_details`. -/
structure IssueRef where
  id : JVal
  title : JVal
  permalink : JVal

/-- Line 188: `f"fix/sentry-{issue_details['id']}-{timestamp}"`, over the
already-stringified issue id. -/
def branchName (issue_id timestamp : PyStr) : PyStr :=
  pstr "fix/sentry-" ++ issue_id ++ pstr "-" ++ timestamp

/-- The PR body f-string of lines 208–221. -/
def prBody (d : IssueRef) (file_path : JVal) (explanation : PyStr) : PyStr :=
  pstr "\n## Automated fix for Sentry issue #" ++ pyStrOf d.id
    ++ pstr "\n\n### Issue Details\n- **Error:** " ++ pyStrOf d.title
    ++ pstr "\n- **Sentry Link:** " ++ pyStrOf d.permalink
    ++ pstr "\n- **File:** " ++ pyStrOf file_path
    ++ pstr "\n\n### AI Explanation\n" ++ explanation
    ++ pstr "\n\n---\n*This PR was automatically generated by the Sentry Gemini Fix Agent*\n    "

/-- `create_github_pr(...)`: branch off the default branch head, commit
the replacement file, open the PR, return its URL.  Every step may raise
and nothing is rolled back. -/
def create_github_pr (g : GitEnv) (timestamp : PyStr) (file_path : JVal)
    (original_content_sha : Option String) (fixed_code : PyStr)
    (issue_details : IssueRef) (explanation : PyStr) : Except PyExc PyStr := do
  let base_branch := g.default_branch
  let new_branch_name := branchName (pyStrOf issue_details.id) timestamp
  let sha ← g.refSha (pstr "heads/" ++ base_branch)
  let _ ← g.createRef (pstr "refs/heads/" ++ new_branch_name) sha
  let commit_message := pstr "Fix: " ++ pyStrOf issue_details.title
    ++ pstr " (Sentry ID: " ++ pyStrOf issue_details.id ++ pstr ")"
  let _ ← g.updateFile file_path commit_message fixed_code
    original_content_sha new_branch_name
  let pr_title := pstr "🤖 [AI Fix] " ++ pyStrOf issue_details.title
  let pr_body := prBody issue_details file_path explanation
  g.createPull pr_title pr_body new_branch_name base_branch

/-! ## Module configuration (lines 9–22) and the issue-list fetch -/

/-- The six module-level environment reads (lines 10–15).  Each uses
`os.environ.get`, which returns `None` (here `none`) when the variable is
absent — no exception is raised and no validation is performed. -/
structure ModuleConfig where
  sentry_token : Option String
  sentry_org : Option String
  sentry_project : Option String
  github_token : Option String
  github_repo : Option String
  gemini_api_key : Option String

/-- The module initialization: read the six variables.  Total — absence
of a value cannot fail here. -/
def loadModuleConfig (env : String → Option String) : ModuleConfig :=
  ⟨env "SENTRY_TOKEN", env "SENTRY_ORG", env "SENTRY_PROJECT",
   env "GITHUB_TOKEN", env "GITHUB_REPO", env "GEMINI_API_KEY"⟩

/-- f-string interpolation of a possibly-absent value: Python renders
`None` as the four characters `None`. -/
def pyFmtOptStr : Option String → PyStr
  | some s => pstr s
  | none => pstr "None"

/-- The URL built by `get_recent_sentry_issues` (line 26). -/
def sentryIssuesUrl (cfg : ModuleConfig) : PyStr :=
  pstr "https://sentry.io/api/0/projects/" ++ pyFmtOptStr cfg.sentry_org
    ++ pstr "/" ++ pyFmtOptStr cfg.sentry_project
    ++ pstr "/issues/?query=is:unresolved"

/-- An HTTP response: status code and decoded JSON body. -/
structure HttpResp where
  status : Nat
  body : JVal

/-- `get_recent_sentry_issues()` (lines 24–48): build the URL from the
module config, issue the request (`http`), and `raise_for_status` — a
4xx/5xx status raises.  The result records the URL that was requested,
so that "a network call was attempted" is observable. -/
def get_recent_sentry_issues (cfg : ModuleConfig) (http : PyStr → HttpResp) :
    PyStr × Except PyExc JVal :=
  let url := sentryIssuesUrl cfg
  let response := http url
  (url, if 400 ≤ response.status then .error .httpError else .ok response.body)

/-! ## The orchestrator (`process_issues`, lines 232–289) -/

/-- The external calls an issue's processing performs, in order.  The
model call is recorded when `create_ai_fix` returns normally with a
nonempty file content (on that path the Gemini request is always made). -/
inductive ExtCall where
  | detailFetch (issue_id : JVal)
  | fileRead (path : JVal)
  | modelCall
  | publishAttempt

/-- How one issue's processing ended (when it did not raise). -/
inductive IssueOutcome where
  | skippedContext
  | skippedFile
  | skippedFix
  | prCreated (url : PyStr)
  | prFailed (e : PyExc)

/-- The injected collaborators of one run: the issue-list response, the
per-issue event-detail fetch (`get_issue_details`, which raises on a
non-2xx), the GitHub repository lookup of line 66 (which yields the
repository's read function, or raises — unguarded), the model call, the
GitHub publish operations, and the `datetime.now()` timestamp string. -/
structure AgentEnv where
  issuesResp : Except PyExc JVal
  details : JVal → Except PyExc JVal
  getRepo : Except PyExc (JVal → Except PyExc (String × String))
  modelGen : PyStr → Except PyExc PyStr
  git : GitEnv
  now : PyStr

/-- One iteration of the `for issue in issues` loop (lines 237–289).
Only the publishing block (lines 269–289) is inside a `try/except`; a
raise from the `issue['id']`/`issue['title']` subscripts, from
`get_issue_details`, from `extract_stack_context`, from the unguarded
`get_repo` inside `get_file_content`, or from the prompt joins inside
`create_ai_fix` propagates out of the loop. -/
def processIssue (env : AgentEnv) (issue : JVal) :
    Except PyExc (List ExtCall × IssueOutcome) := do
  let issue_id ← issue.subscript "id"
  let issue_title ← issue.subscript "title"
  let issue_details ← env.details issue_id
  let ext ← extract_stack_context issue_details
  match ext with
  | none => pure ([.detailFetch issue_id], .skippedContext)
  | some (context_info, file_path) =>
    -- `if not context_info or not file_path`: the context dict is a
    -- six-key dict here, hence truthy; only `file_path` decides.
    if pyFalsy file_path then
      pure ([.detailFetch issue_id], .skippedContext)
    else do
      let fc ← get_file_content env.getRepo file_path
      match fc with
      | (none, _) =>
        pure ([.detailFetch issue_id, .fileRead file_path], .skippedFile)
      | (some content, content_sha) =>
        if content = "" then
          pure ([.detailFetch issue_id, .fileRead file_path], .skippedFile)
        else do
          let fixRes ← create_ai_fix env.modelGen issue_title content context_info
          match fixRes with
          | none =>
            pure ([.detailFetch issue_id, .fileRead file_path, .modelCall],
                  .skippedFix)
          | some fix =>
            match (do
                let permalink ← issue.subscript "permalink"
                create_github_pr env.git env.now file_path content_sha
                  fix.fixed_code ⟨issue_id, issue_title, permalink⟩
                  fix.explanation : Except PyExc PyStr) with
            | .ok url =>
              pure ([.detailFetch issue_id, .fileRead file_path, .modelCall,
                     .publishAttempt], .prCreated url)
            | .error e =>
              pure ([.detailFetch issue_id, .fileRead file_path, .modelCall,
                     .publishAttempt], .prFailed e)

/-- The batch's observable result: the issues that completed an
iteration (with their calls and outcome), and the uncaught exception
that aborted the loop, if any. -/
structure BatchResult where
  processed : List (JVal × List ExtCall × IssueOutcome)
  aborted : Option PyExc

/-- Run the loop over the remaining issues.  An uncaught raise abandons
the rest of the list. -/
def runBatch (env : AgentEnv) : List JVal → BatchResult
  | [] => ⟨[], none⟩
  | issue :: rest =>
    match processIssue env issue with
    | .error e => ⟨[], some e⟩
    | .ok (calls, out) =>
      let r := runBatch env rest
      ⟨(issue, calls, out) :: r.processed, r.aborted⟩

/-- Python iteration (`for issue in issues`) over a JSON value: lists
yield elements, strings yield characters, dicts yield keys, everything
else raises `TypeError`. -/
def iterPy (v : JVal) : Except PyExc (List JVal) :=
  match v with
  | .jlist xs => .ok xs
  | .jstr s => .ok (s.data.map (fun c => .jstr (String.mk [c])))
  | .jobj kvs => .ok (kvs.map (fun p => .jstr p.1))
  | _ => .error .typeError

/-- `process_issues()` (lines 232–289): fetch the issue list (a raise
there aborts immediately), then iterate. -/
def process_issues (env : AgentEnv) : BatchResult :=
  match env.issuesResp with
  | .error e => ⟨[], some e⟩
  | .ok v =>
    match iterPy v with
    | .error e => ⟨[], some e⟩
    | .ok issues => runBatch env issues

/-! ## Lemmas about the embedded string operations -/

theorem except_bind_ok {α β : Type} (a : α) (f : α → Except PyExc β) :
    (Except.ok a >>= f) = f a := rfl

theorem except_bind_error {α β : Type} (e : PyExc) (f : α → Except PyExc β) :
    ((Except.error e : Except PyExc α) >>= f) = Except.error e := rfl

theorem startsWith_append_self (p t : PyStr) : startsWith p (p ++ t) = true := by
  induction p with
  | nil => rfl
  | cons c cs ih => simp [startsWith, ih]

theorem startsWith_nil_iff (d : Char) (ds : PyStr) :
    startsWith (d :: ds) [] = false := rfl

theorem noChar_cons (c x : Char) (xs : PyStr) :
    noChar c (x :: xs) = ((x != c) && noChar c xs) := by
  simp [noChar]

theorem noChar_append (c : Char) (a b : PyStr) :
    noChar c (a ++ b) = (noChar c a && noChar c b) := by
  simp [noChar, List.all_append]

theorem pySplitF_succ_pos (d : Char) (ds : PyStr) (f : Nat) (s : PyStr)
    (hs : startsWith (d :: ds) s = true) :
    pySplitF d ds (f + 1) s = [] :: pySplitF d ds f (s.drop (ds.length + 1)) := by
  simp [pySplitF, hs]

theorem pySplitF_succ_neg_nil (d : Char) (ds : PyStr) (f : Nat) :
    pySplitF d ds (f + 1) [] = [[]] := by
  simp [pySplitF, startsWith_nil_iff]

theorem pySplitF_succ_neg_cons (d : Char) (ds : PyStr) (f : Nat) (c : Char)
    (rest : PyStr) (hs : startsWith (d :: ds) (c :: rest) = false) :
    pySplitF d ds (f + 1) (c :: rest) =
      match pySplitF d ds f rest with
      | [] => [[c]]
      | p :: ps => (c :: p) :: ps := by
  simp [pySplitF, hs]

theorem pySplitF_fuel (d : Char) (ds : PyStr) :
    ∀ (f1 : Nat) (s : PyStr) (f2 : Nat), s.length < f1 → s.length < f2 →
      pySplitF d ds f1 s = pySplitF d ds f2 s := by
  intro f1
  induction f1 with
  | zero => intro s f2 h1 _; exact absurd h1 (Nat.not_lt_zero _)
  | succ g ih =>
    intro s f2 h1 h2
    cases f2 with
    | zero => exact absurd h2 (Nat.not_lt_zero _)
    | succ g2 =>
      cases hs : startsWith (d :: ds) s with
      | true =>
        rw [pySplitF_succ_pos d ds g s hs, pySplitF_succ_pos d ds g2 s hs]
        cases s with
        | nil => exact absurd hs (by simp [startsWith_nil_iff])
        | cons c cs =>
          have hd : ((c :: cs).drop (ds.length + 1)).length < g := by
            simp only [List.length_drop, List.length_cons] at *
            omega
          have hd2 : ((c :: cs).drop (ds.length + 1)).length < g2 := by
            simp only [List.length_drop, List.length_cons] at *
            omega
          rw [ih _ g2 hd hd2]
      | false =>
        cases s with
        | nil => rw [pySplitF_succ_neg_nil, pySplitF_succ_neg_nil]
        | cons c rest =>
          rw [pySplitF_succ_neg_cons d ds g c rest hs,
              pySplitF_succ_neg_cons d ds g2 c rest hs]
          have hr : rest.length < g := by
            simp only [List.length_cons] at h1; omega
          have hr2 : rest.length < g2 := by
            simp only [List.length_cons] at h2; omega
          rw [ih rest g2 hr hr2]

theorem pySplitF_ne_nil (d : Char) (ds : PyStr) (f : Nat) (s : PyStr) :
    pySplitF d ds f s ≠ [] := by
  cases f with
  | zero => simp [pySplitF]
  | succ g =>
    cases hs : startsWith (d :: ds) s with
    | true => rw [pySplitF_succ_pos d ds g s hs]; simp
    | false =>
      cases s with
      | nil => rw [pySplitF_succ_neg_nil]; simp
      | cons c rest =>
        rw [pySplitF_succ_neg_cons d ds g c rest hs]
        cases pySplitF d ds g rest with
        | nil => simp
        | cons p ps => simp

theorem pySplit_ne_nil (sep s : PyStr) : pySplit sep s ≠ [] := by
  cases sep with
  | nil => simp [pySplit]
  | cons d ds => exact pySplitF_ne_nil d ds _ s

theorem noChar_not_contains (d : Char) (ds : PyStr) :
    ∀ s : PyStr, noChar d s = true → containsSub (d :: ds) s = false := by
  intro s
  induction s with
  | nil => intro _; rfl
  | cons c rest ih =>
    intro h
    rw [noChar_cons] at h
    simp only [Bool.and_eq_true] at h
    obtain ⟨h1, h2⟩ := h
    have hne : (d == c) = false := by
      simp only [bne_iff_ne] at h1
      simp only [beq_eq_false_iff_ne]
      exact fun he => h1 he.symm
    simp [containsSub, startsWith, hne, ih h2]

theorem pySplitF_no_occ (d : Char) (ds : PyStr) :
    ∀ (s : PyStr) (f : Nat), containsSub (d :: ds) s = false → s.length < f →
      pySplitF d ds f s = [s] := by
  intro s
  induction s with
  | nil =>
    intro f _ hf
    cases f with
    | zero => exact absurd hf (Nat.not_lt_zero _)
    | succ g => rw [pySplitF_succ_neg_nil]
  | cons c rest ih =>
    intro f hc hf
    cases f with
    | zero => exact absurd hf (Nat.not_lt_zero _)
    | succ g =>
      simp only [containsSub, Bool.or_eq_false_iff] at hc
      obtain ⟨hc1, hc2⟩ := hc
      rw [pySplitF_succ_neg_cons d ds g c rest hc1]
      have hr : rest.length < g := by
        simp only [List.length_cons] at hf; omega
      rw [ih g hc2 hr]

theorem pySplit_no_occ (d : Char) (ds s : PyStr)
    (h : containsSub (d :: ds) s = false) : pySplit (d :: ds) s = [s] := by
  simp only [pySplit]
  exact pySplitF_no_occ d ds s _ h (Nat.lt_succ_self _)

theorem pySplit_noChar (d : Char) (ds s : PyStr) (h : noChar d s = true) :
    pySplit (d :: ds) s = [s] :=
  pySplit_no_occ d ds s (noChar_not_contains d ds s h)

theorem startsWith_cons_false_of_ne (d : Char) (ds : PyStr) (x : Char)
    (xs : PyStr) (h : x ≠ d) : startsWith (d :: ds) (x :: xs) = false := by
  have hne : (d == x) = false := by
    simp only [beq_eq_false_iff_ne]
    exact fun he => h he.symm
  simp [startsWith, hne]

theorem pySplitF_append (d : Char) (ds : PyStr) :
    ∀ (a t : PyStr) (f ft : Nat), noChar d a = true →
      (a ++ (d :: ds) ++ t).length < f → t.length < ft →
      pySplitF d ds f (a ++ (d :: ds) ++ t) = a :: pySplitF d ds ft t := by
  intro a
  induction a with
  | nil =>
    intro t f ft _ hf hft
    simp only [List.nil_append] at *
    cases f with
    | zero => exact absurd hf (Nat.not_lt_zero _)
    | succ g =>
      rw [pySplitF_succ_pos d ds g _ (startsWith_append_self (d :: ds) t)]
      have hdrop : ((d :: ds) ++ t).drop (ds.length + 1) = t := by
        have : (d :: ds).length = ds.length + 1 := by simp
        rw [← this, List.drop_left]
      rw [hdrop]
      have hg : t.length < g := by
        simp only [List.length_append, List.length_cons] at hf; omega
      rw [pySplitF_fuel d ds g t ft hg hft]
  | cons x a2 ih =>
    intro t f ft hnc hf hft
    rw [noChar_cons] at hnc
    simp only [Bool.and_eq_true] at hnc
    obtain ⟨hx, hnc2⟩ := hnc
    cases f with
    | zero => exact absurd hf (Nat.not_lt_zero _)
    | succ g =>
      simp only [List.cons_append] at *
      rw [pySplitF_succ_neg_cons d ds g x _
            (startsWith_cons_false_of_ne d ds x _ (bne_iff_ne.mp hx))]
      have hg : (a2 ++ (d :: ds) ++ t).length < g := by
        simp only [List.length_cons, List.length_append] at *; omega
      rw [ih t g ft hnc2 hg hft]

theorem pySplit_append (a t : PyStr) (d : Char) (ds : PyStr)
    (ha : noChar d a = true) :
    pySplit (d :: ds) (a ++ (d :: ds) ++ t) = a :: pySplit (d :: ds) t := by
  simp only [pySplit]
  exact pySplitF_append d ds a t _ _ ha (Nat.lt_succ_self _) (Nat.lt_succ_self _)

theorem agrees_of_startsWith :
    ∀ (m c sep : PyStr), startsWith sep (m ++ c) = true →
      agreesUpTo m sep = true := by
  intro m
  induction m with
  | nil => intro c sep _; rfl
  | cons y m2 ih =>
    intro c sep h
    cases sep with
    | nil => rfl
    | cons e es =>
      simp only [List.cons_append, startsWith, Bool.and_eq_true] at h
      obtain ⟨h1, h2⟩ := h
      have hey : e = y := by exact eq_of_beq h1
      simp only [agreesUpTo, Bool.and_eq_true]
      constructor
      · simp [hey]
      · exact ih c es h2

theorem pySplitF_skip_mid (d : Char) (ds : PyStr) :
    ∀ (m cs : PyStr) (f : Nat),
      (∀ k, k < m.length → agreesUpTo (m.drop k) (d :: ds) = false) →
      noChar d cs = true → (m ++ cs).length < f →
      pySplitF d ds f (m ++ cs) = [m ++ cs] := by
  intro m
  induction m with
  | nil =>
    intro cs f _ hc hf
    simp only [List.nil_append] at *
    exact pySplitF_no_occ d ds cs f (noChar_not_contains d ds cs hc) hf
  | cons y m2 ih =>
    intro cs f hm hc hf
    cases f with
    | zero => exact absurd hf (Nat.not_lt_zero _)
    | succ g =>
      have hsw : startsWith (d :: ds) ((y :: m2) ++ cs) = false := by
        cases hq : startsWith (d :: ds) ((y :: m2) ++ cs) with
        | false => rfl
        | true =>
          have := agrees_of_startsWith (y :: m2) cs (d :: ds) hq
          have h0 := hm 0 (by simp)
          simp only [List.drop_zero] at h0
          rw [h0] at this
          exact absurd this (by simp)
      simp only [List.cons_append] at hsw ⊢
      rw [pySplitF_succ_neg_cons d ds g y _ hsw]
      have hm2 : ∀ k, k < m2.length → agreesUpTo (m2.drop k) (d :: ds) = false := by
        intro k hk
        have := hm (k + 1) (by simp only [List.length_cons]; omega)
        simpa using this
      have hg : (m2 ++ cs).length < g := by
        simp only [List.length_cons, List.length_append] at *; omega
      rw [ih cs g hm2 hc hg]

theorem pySplitF_skip (d : Char) (ds : PyStr) :
    ∀ (b m cs : PyStr) (f : Nat), noChar d b = true →
      (∀ k, k < m.length → agreesUpTo (m.drop k) (d :: ds) = false) →
      noChar d cs = true → (b ++ m ++ cs).length < f →
      pySplitF d ds f (b ++ m ++ cs) = [b ++ m ++ cs] := by
  intro b
  induction b with
  | nil =>
    intro m cs f _ hm hc hf
    simp only [List.nil_append] at *
    exact pySplitF_skip_mid d ds m cs f hm hc hf
  | cons x b2 ih =>
    intro m cs f hb hm hc hf
    rw [noChar_cons] at hb
    simp only [Bool.and_eq_true] at hb
    obtain ⟨hx, hb2⟩ := hb
    cases f with
    | zero => exact absurd hf (Nat.not_lt_zero _)
    | succ g =>
      simp only [List.cons_append] at *
      rw [pySplitF_succ_neg_cons d ds g x _
            (startsWith_cons_false_of_ne d ds x _ (bne_iff_ne.mp hx))]
      have hg : (b2 ++ m ++ cs).length < g := by
        simp only [List.length_cons, List.length_append] at *; omega
      rw [ih m cs g hb2 hm hc hg]

theorem pySplit_skip (b m cs : PyStr) (d : Char) (ds : PyStr)
    (hb : noChar d b = true)
    (hm : ∀ k, k < m.length → agreesUpTo (m.drop k) (d :: ds) = false)
    (hc : noChar d cs = true) :
    pySplit (d :: ds) (b ++ m ++ cs) = [b ++ m ++ cs] := by
  simp only [pySplit]
  exact pySplitF_skip d ds b m cs _ hb hm hc (Nat.lt_succ_self _)

theorem hasOccWithin_succ (sep : PyStr) (c : Char) (rest : PyStr) (n : Nat) :
    hasOccWithin sep (c :: rest) (n + 1)
      = (startsWith sep (c :: rest) || hasOccWithin sep rest n) := rfl

theorem pySplitF_append_first (d : Char) (ds : PyStr) :
    ∀ (a t : PyStr) (f ft : Nat),
      hasOccWithin (d :: ds) (a ++ (d :: ds) ++ t) a.length = false →
      (a ++ (d :: ds) ++ t).length < f → t.length < ft →
      pySplitF d ds f (a ++ (d :: ds) ++ t) = a :: pySplitF d ds ft t := by
  intro a
  induction a with
  | nil =>
    intro t f ft _ hf hft
    simp only [List.nil_append] at *
    cases f with
    | zero => exact absurd hf (Nat.not_lt_zero _)
    | succ g =>
      rw [pySplitF_succ_pos d ds g _ (startsWith_append_self (d :: ds) t)]
      have hdrop : ((d :: ds) ++ t).drop (ds.length + 1) = t := by
        have : (d :: ds).length = ds.length + 1 := by simp
        rw [← this, List.drop_left]
      rw [hdrop]
      have hg : t.length < g := by
        simp only [List.length_append, List.length_cons] at hf; omega
      rw [pySplitF_fuel d ds g t ft hg hft]
  | cons x a2 ih =>
    intro t f ft hocc hf hft
    simp only [List.cons_append, List.length_cons] at hocc hf ⊢
    rw [hasOccWithin_succ] at hocc
    simp only [Bool.or_eq_false_iff] at hocc
    obtain ⟨h1, h2⟩ := hocc
    cases f with
    | zero => exact absurd hf (Nat.not_lt_zero _)
    | succ g =>
      rw [pySplitF_succ_neg_cons d ds g x _ h1]
      have hg : (a2 ++ (d :: ds) ++ t).length < g := by
        simp only [List.length_cons, List.length_append] at *; omega
      rw [ih t g ft h2 hg hft]

theorem pySplit_append_first (a t : PyStr) (d : Char) (ds : PyStr)
    (ha : hasOccWithin (d :: ds) (a ++ (d :: ds) ++ t) a.length = false) :
    pySplit (d :: ds) (a ++ (d :: ds) ++ t) = a :: pySplit (d :: ds) t := by
  simp only [pySplit]
  exact pySplitF_append_first d ds a t _ _ ha (Nat.lt_succ_self _)
    (Nat.lt_succ_self _)

theorem hasOccWithin_suffix (sep : PyStr) :
    ∀ (u v : PyStr) (n : Nat),
      hasOccWithin sep (u ++ v) (u.length + n) = false →
      hasOccWithin sep v n = false := by
  intro u
  induction u with
  | nil => intro v n h; simpa using h
  | cons x u2 ih =>
    intro v n h
    simp only [List.cons_append, List.length_cons] at h
    have e : u2.length + 1 + n = u2.length + n + 1 := by omega
    rw [e, hasOccWithin_succ] at h
    simp only [Bool.or_eq_false_iff] at h
    exact ih v n h.2

/-! ## Specializations of the split lemmas to the two literal markers -/

theorem pySplit_explM_append (a t : PyStr) (ha : noChar 'E' a = true) :
    pySplit explanationMarker (a ++ explanationMarker ++ t)
      = a :: pySplit explanationMarker t :=
  pySplit_append a t 'E' (pstr "XPLANATION:") ha

theorem pySplit_explM_noOcc (s : PyStr)
    (h : containsSub explanationMarker s = false) :
    pySplit explanationMarker s = [s] :=
  pySplit_no_occ 'E' (pstr "XPLANATION:") s h

theorem pySplit_fixM_append (a t : PyStr) (ha : noChar 'F' a = true) :
    pySplit fixedCodeMarker (a ++ fixedCodeMarker ++ t)
      = a :: pySplit fixedCodeMarker t :=
  pySplit_append a t 'F' (pstr "IXED_CODE:") ha

theorem pySplit_fixM_noOcc (s : PyStr)
    (h : containsSub fixedCodeMarker s = false) :
    pySplit fixedCodeMarker s = [s] :=
  pySplit_no_occ 'F' (pstr "IXED_CODE:") s h

theorem pySplit_fixM_noChar (s : PyStr) (h : noChar 'F' s = true) :
    pySplit fixedCodeMarker s = [s] :=
  pySplit_noChar 'F' (pstr "IXED_CODE:") s h

theorem pySplit_explM_skip_fixM (b cs : PyStr) (hb : noChar 'E' b = true)
    (hc : noChar 'E' cs = true) :
    pySplit explanationMarker (b ++ fixedCodeMarker ++ cs)
      = [b ++ fixedCodeMarker ++ cs] :=
  pySplit_skip b fixedCodeMarker cs 'E' (pstr "XPLANATION:") hb (by decide) hc

theorem pySplit_explM_append_first (a t : PyStr)
    (ha : hasOccWithin explanationMarker (a ++ explanationMarker ++ t)
      a.length = false) :
    pySplit explanationMarker (a ++ explanationMarker ++ t)
      = a :: pySplit explanationMarker t :=
  pySplit_append_first a t 'E' (pstr "XPLANATION:") ha

theorem pySplit_fixM_append_first (a t : PyStr)
    (ha : hasOccWithin fixedCodeMarker (a ++ fixedCodeMarker ++ t)
      a.length = false) :
    pySplit fixedCodeMarker (a ++ fixedCodeMarker ++ t)
      = a :: pySplit fixedCodeMarker t :=
  pySplit_append_first a t 'F' (pstr "IXED_CODE:") ha

/-! ## Claims about the fix generator's reply parsing (C4, C5, C6) -/

/-- C4: for a model reply equal to `EXPLANATION:\nA\nFIXED_CODE:\n` followed
by a python-tagged code fence containing `B`, the parse returns a FixResult
with explanation `A` and fixed_code `B`, the code-fence markers stripped. -/
theorem c4_fence_example_parses :
    parseFixReply (pstr "EXPLANATION:\nA\nFIXED_CODE:\n```python\nB\n```")
      = some ⟨pstr "A", pstr "B"⟩ := by rfl

/-- C5: for every model reply in which the `EXPLANATION:` marker or the
`FIXED_CODE:` marker does not occur, `create_ai_fix` returns `None`
(here `.ok none`): the `IndexError` of the failed split is caught inside
the function and no exception reaches the caller. -/
theorem c5_missing_marker_gives_none (modelGen : PyStr → Except PyExc PyStr)
    (error_message : JVal) (file_content : String) (ctx : StackContext)
    (pretext posttext reply : PyStr)
    (hfc : ¬ file_content = "")
    (hpre : pyJoin (pstr "\n") ctx.pre_context = .ok pretext)
    (hpost : pyJoin (pstr "\n") ctx.post_context = .ok posttext)
    (hmodel : modelGen (buildPrompt error_message file_content ctx pretext posttext)
      = .ok reply)
    (hmiss : containsSub explanationMarker reply = false
      ∨ containsSub fixedCodeMarker reply = false) :
    create_ai_fix modelGen error_message file_content ctx = .ok none := by
  have hparse : parseFixReply reply = none := by
    cases hmiss with
    | inl h =>
      have hs : pySplit explanationMarker reply = [reply] :=
        pySplit_explM_noOcc reply h
      simp [parseFixReply, hs]
    | inr h =>
      have hF : pySplit fixedCodeMarker reply = [reply] :=
        pySplit_fixM_noOcc reply h
      cases hseg : (pySplit explanationMarker reply)[1]? with
      | none => simp [parseFixReply, hseg]
      | some seg1 =>
        obtain ⟨p, ps, hps⟩ : ∃ p ps, pySplit fixedCodeMarker seg1 = p :: ps := by
          cases hq : pySplit fixedCodeMarker seg1 with
          | nil => exact absurd hq (pySplit_ne_nil _ _)
          | cons p ps => exact ⟨p, ps, rfl⟩
        simp [parseFixReply, hseg, hps, hF]
  simp only [create_ai_fix, if_neg hfc, hpre, except_bind_ok, hpost, hmodel, hparse]
  rfl

/-- Witness for C5 at a concrete environment and reply. -/
theorem c5_missing_marker_gives_none_witness :
    create_ai_fix (fun _ => .ok (pstr "no markers in this reply"))
      (.jstr "title") "content"
      ⟨.jstr "a.py", .jnum 1, .jstr "", .jlist [], .jlist [], .jstr ""⟩
      = .ok none := by
  exact c5_missing_marker_gives_none _ _ _ _ [] []
    (pstr "no markers in this reply") (by decide) rfl rfl rfl
    (Or.inl (by decide))

/-- C6 counterexample: in the reply
`EXPLANATION:aFIXED_CODE:bFIXED_CODE:c` the marker `FIXED_CODE:` occurs
twice; everything after its first occurrence is `bFIXED_CODE:c` (which
fence-stripping and whitespace-trimming would leave unchanged), but the
code's `split(...)[1]` yields only `b`, the text between the first and
second occurrences. -/
theorem c6_counterexample :
    (parseFixReply (pstr "EXPLANATION:aFIXED_CODE:bFIXED_CODE:c")).map
        (fun r => r.fixed_code) = some (pstr "b")
    ∧ pstr "b" ≠ pstr "bFIXED_CODE:c" := ⟨rfl, by decide⟩

/-- C6 (amended): for every model reply in which each marker occurs
exactly once and `EXPLANATION:` precedes `FIXED_CODE:` — the reply
decomposes as `a ++ EXPLANATION: ++ b ++ FIXED_CODE: ++ c` with no
`EXPLANATION:` occurrence starting before the shown one or after it, and
no `FIXED_CODE:` occurrence starting before the shown one or inside `c`
— the explanation is everything between the two markers
(whitespace-trimmed, per the code) and the fixed code is everything
after `FIXED_CODE:` (whitespace-trimmed and fence-stripped, per the
code).  With repeated markers the code instead takes the text between a
marker's first and second occurrences. -/
theorem c6_single_marker_segments (a b c : PyStr)
    (hE1 : hasOccWithin explanationMarker
      (a ++ explanationMarker ++ b ++ fixedCodeMarker ++ c) a.length = false)
    (hE2 : containsSub explanationMarker (b ++ fixedCodeMarker ++ c) = false)
    (hF1 : hasOccWithin fixedCodeMarker
      (a ++ explanationMarker ++ b ++ fixedCodeMarker ++ c)
      (a ++ explanationMarker ++ b).length = false)
    (hF2 : containsSub fixedCodeMarker c = false) :
    parseFixReply (a ++ explanationMarker ++ b ++ fixedCodeMarker ++ c)
      = some ⟨pyStrip b, stripCodeFences (pyStrip c)⟩ := by
  have hr1 : a ++ explanationMarker ++ b ++ fixedCodeMarker ++ c
      = a ++ explanationMarker ++ (b ++ fixedCodeMarker ++ c) := by
    simp [List.append_assoc]
  have step1 : pySplit explanationMarker
      (a ++ explanationMarker ++ b ++ fixedCodeMarker ++ c)
      = a :: pySplit explanationMarker (b ++ fixedCodeMarker ++ c) := by
    rw [hr1]
    exact pySplit_explM_append_first a (b ++ fixedCodeMarker ++ c)
      (by rw [← hr1]; exact hE1)
  have step2 : pySplit explanationMarker (b ++ fixedCodeMarker ++ c)
      = [b ++ fixedCodeMarker ++ c] :=
    pySplit_explM_noOcc _ hE2
  have hr2 : a ++ explanationMarker ++ b ++ fixedCodeMarker ++ c
      = (a ++ explanationMarker) ++ (b ++ fixedCodeMarker ++ c) := by
    simp [List.append_assoc]
  have hF1t : hasOccWithin fixedCodeMarker (b ++ fixedCodeMarker ++ c)
      b.length = false := by
    apply hasOccWithin_suffix fixedCodeMarker (a ++ explanationMarker)
      (b ++ fixedCodeMarker ++ c) b.length
    have e : (a ++ explanationMarker ++ b).length
        = (a ++ explanationMarker).length + b.length := by
      simp only [List.length_append]
    rw [← hr2, ← e]
    exact hF1
  have step3 : pySplit fixedCodeMarker (b ++ fixedCodeMarker ++ c)
      = [b, c] := by
    rw [pySplit_fixM_append_first b c hF1t, pySplit_fixM_noOcc c hF2]
  have step4 : pySplit fixedCodeMarker
      (a ++ explanationMarker ++ b ++ fixedCodeMarker ++ c)
      = (a ++ explanationMarker ++ b) :: [c] := by
    rw [pySplit_fixM_append_first (a ++ explanationMarker ++ b) c hF1,
        pySplit_fixM_noOcc c hF2]
  simp only [parseFixReply, step1, step2, step3, step4,
    List.getElem?_cons_succ, List.getElem?_cons_zero]

/-- Witness for C6 at a concrete reply whose segments contain uppercase
`E` and `F` text (`Fix`, `Explanation`, `False`) while each marker still
occurs exactly once. -/
theorem c6_single_marker_segments_witness :
    parseFixReply (pstr "Intro. " ++ explanationMarker
        ++ pstr "\nThe Fix: add a None check to Explanation handling.\n"
        ++ fixedCodeMarker ++ pstr "\ndef fix():\n    return False\n")
      = some ⟨pyStrip
          (pstr "\nThe Fix: add a None check to Explanation handling.\n"),
          stripCodeFences (pyStrip
            (pstr "\ndef fix():\n    return False\n"))⟩ := by
  exact c6_single_marker_segments (pstr "Intro. ")
    (pstr "\nThe Fix: add a None check to Explanation handling.\n")
    (pstr "\ndef fix():\n    return False\n")
    (by decide) (by decide) (by decide) (by decide)

/-! ## Claims about the context extractor (C2, C3) -/

theorem except_pure_eq {α : Type} (a : α) :
    (pure a : Except PyExc α) = .ok a := rfl

theorem jindex_last (l : List JVal) (x : JVal) :
    (JVal.jlist (l ++ [x])).index (-1) = .ok x := by
  simp only [JVal.index]
  have e : (-1 : Int) + ((l ++ [x]).length : Int) = (l.length : Int) := by
    simp [List.length_append]
  rw [if_pos (show (-1 : Int) < 0 by decide), e,
      if_neg (show ¬ (l.length : Int) < 0 by omega), Int.toNat_natCast,
      List.getElem?_concat_length]

theorem pyFalsy_concat (l : List JVal) (x : JVal) :
    pyFalsy (.jlist (l ++ [x])) = false := by
  cases l <;> rfl

/-- An event payload whose stacktrace carries exactly the given frame
list (test scaffolding for the extractor claims). -/
def mkFrameEvent (frames : List JVal) : JVal :=
  .jobj [("entries", .jlist [.jobj [("data", .jobj [("values", .jlist
    [.jobj [("stacktrace", .jobj [("frames", .jlist frames)])]])])]])]

theorem framesOf_mkFrameEvent (frames : List JVal) :
    framesOfEvent (mkFrameEvent frames) = .ok (.jlist frames) := rfl

/-- C2 counterexample: on the empty event payload the `entries` default
`[]` is indexed with `[0]`, which raises `IndexError` — the extractor
does not return absent for a missing `entries` level. -/
theorem c2_counterexample :
    extract_stack_context (.jobj []) = .error .indexError := rfl

/-- C2 (amended): the extractor returns absent exactly when the chained
navigation reaches a falsy frame list (missing `stacktrace`, missing
`frames`, or an empty frame list); an exception raised earlier in the
navigation — in particular the `IndexError` from an absent or empty
`entries` list — propagates to the caller instead of becoming absent. -/
theorem c2_absent_only_after_navigation :
    (∀ (ev f : JVal), framesOfEvent ev = .ok f → pyFalsy f = true →
      extract_stack_context ev = .ok none)
    ∧ (∀ (ev : JVal) (e : PyExc), framesOfEvent ev = .error e →
      extract_stack_context ev = .error e)
    ∧ (∀ kvs, (JVal.jobj kvs).get "entries" (.jlist []) = .ok (.jlist []) →
      extract_stack_context (.jobj kvs) = .error .indexError) := by
  refine ⟨?_, ?_, ?_⟩
  · intro ev f hf hfal
    simp only [extract_stack_context, hf, except_bind_ok, hfal, if_true,
      except_pure_eq]
  · intro ev e hf
    simp only [extract_stack_context, hf, except_bind_error]
  · intro kvs hk
    have hfr : framesOfEvent (.jobj kvs) = .error .indexError := by
      simp only [framesOfEvent, hk, except_bind_ok]
      rfl
    simp only [extract_stack_context, hfr, except_bind_error]

/-- Witness for C2 (amended): an event with an empty frame list yields
absent without an exception. -/
theorem c2_absent_only_after_navigation_witness :
    extract_stack_context (mkFrameEvent []) = .ok none :=
  c2_absent_only_after_navigation.1 (mkFrameEvent []) (.jlist []) rfl rfl

/-- C3: for an event whose first entry's first exception value has a
stacktrace with at least one frame, the extractor returns a context whose
`line_number` and `file_path` are the `lineno` and `filename` of the last
frame; for an empty frame list it returns absent. -/
theorem c3_deepest_frame_fields (init : List JVal) (fname : String) (ln : Int) :
    extract_stack_context (mkFrameEvent (init
        ++ [.jobj [("filename", .jstr fname), ("lineno", .jnum ln)]]))
      = .ok (some (⟨.jstr fname, .jnum ln, .jstr "", .jlist [], .jlist [],
            .jstr ""⟩, .jstr fname))
    ∧ extract_stack_context (mkFrameEvent []) = .ok none := by
  constructor
  · have hidx := jindex_last init
      (JVal.jobj [("filename", .jstr fname), ("lineno", .jnum ln)])
    simp only [extract_stack_context, framesOf_mkFrameEvent, except_bind_ok,
      pyFalsy_concat, Bool.false_eq_true, if_false, hidx]
    rfl
  · rfl

/-! ## Claims about the publisher's branch naming (C7) -/

/-- C7 counterexample: for issue id `42` and a concrete timestamp the
branch created is `fix/sentry-42-<timestamp>`, which differs from the
claimed `fix/42-<timestamp>` and does not start with `fix/42-`. -/
theorem c7_counterexample :
    branchName (pstr "42") (pstr "20250101120000")
        ≠ pstr "fix/42-20250101120000"
    ∧ startsWith (pstr "fix/42-")
        (branchName (pstr "42") (pstr "20250101120000")) = false :=
  ⟨by decide, by decide⟩

/-- C7 (amended): the branch name is exactly
`fix/sentry-<issue-id>-<timestamp>`, so it always starts with
`fix/sentry-<issue-id>-`; and for timestamps of equal length (the
second-resolution `%Y%m%d%H%M%S` format is always 14 characters),
different timestamps give different branch names, whatever the ids. -/
theorem c7_branch_name_format :
    (∀ issue_id t : PyStr,
      startsWith (pstr "fix/sentry-" ++ issue_id ++ pstr "-")
        (branchName issue_id t) = true)
    ∧ (∀ id1 id2 t1 t2 : PyStr, t1.length = t2.length → ¬ t1 = t2 →
      branchName id1 t1 ≠ branchName id2 t2) := by
  constructor
  · intro issue_id t
    exact startsWith_append_self (pstr "fix/sentry-" ++ issue_id ++ pstr "-") t
  · intro id1 id2 t1 t2 hlen hne heq
    simp only [branchName] at heq
    exact hne (List.append_inj' heq hlen).2

/-- Witness for C7 (amended) at concrete ids and timestamps. -/
theorem c7_branch_name_format_witness :
    branchName (pstr "7") (pstr "20250101120000")
        ≠ branchName (pstr "7") (pstr "20250101120001")
    ∧ startsWith (pstr "fix/sentry-" ++ pstr "7" ++ pstr "-")
        (branchName (pstr "7") (pstr "20250101120000")) = true :=
  ⟨c7_branch_name_format.2 (pstr "7") (pstr "7") _ _ (by decide) (by decide),
   c7_branch_name_format.1 (pstr "7") (pstr "20250101120000")⟩

/-! ## Claims about process configuration (C8) -/

/-- C8 counterexample: with every environment variable absent, module
initialization completes without any failure (all six values are `None`),
and the first issue-list request is still attempted — with the string
`None` interpolated into the URL — rather than the process failing before
any network call. -/
theorem c8_counterexample :
    loadModuleConfig (fun _ => none) = ⟨none, none, none, none, none, none⟩
    ∧ (get_recent_sentry_issues (loadModuleConfig (fun _ => none))
        (fun _ => ⟨401, .jnull⟩)).1
      = pstr "https://sentry.io/api/0/projects/None/None/issues/?query=is:unresolved" :=
  ⟨rfl, rfl⟩

/-- C8 (amended): absent environment values do not fail fast.  Each is
read with a defaulting lookup that yields `None`, startup performs no
validation, and the issue-list request is issued with `None` in place of
the missing organization and project; an error can only surface from the
HTTP response, after the network call. -/
theorem c8_no_failfast (env : String → Option String) (http : PyStr → HttpResp)
    (horg : env "SENTRY_ORG" = none) (hproj : env "SENTRY_PROJECT" = none) :
    (get_recent_sentry_issues (loadModuleConfig env) http).1
      = pstr "https://sentry.io/api/0/projects/None/None/issues/?query=is:unresolved"
    ∧ loadModuleConfig env
      = ⟨env "SENTRY_TOKEN", none, none, env "GITHUB_TOKEN",
         env "GITHUB_REPO", env "GEMINI_API_KEY"⟩ := by
  constructor
  · simp only [get_recent_sentry_issues, sentryIssuesUrl, loadModuleConfig,
      horg, hproj, pyFmtOptStr]
    rfl
  · simp only [loadModuleConfig, horg, hproj]

/-- Witness for C8 (amended) at the empty environment. -/
theorem c8_no_failfast_witness :
    (get_recent_sentry_issues (loadModuleConfig (fun _ => none))
        (fun _ => ⟨401, .jnull⟩)).1
      = pstr "https://sentry.io/api/0/projects/None/None/issues/?query=is:unresolved" :=
  (c8_no_failfast (fun _ => none) (fun _ => ⟨401, .jnull⟩) rfl rfl).1

/-! ## Claims about the orchestrator and the file read (C9, C10, C1) -/

/-- An issue whose list entry has concrete id, title, and permalink
(test scaffolding for the orchestrator claims). -/
def issueOne : JVal :=
  .jobj [("id", .jstr "1"), ("title", .jstr "boom"), ("permalink", .jstr "p1")]

/-- A second concrete issue, used to show batch termination. -/
def issueTwo : JVal :=
  .jobj [("id", .jstr "2"), ("title", .jstr "crash"), ("permalink", .jstr "p2")]

/-- An event whose only frame has a filename and a line number. -/
def evGood : JVal :=
  mkFrameEvent [.jobj [("filename", .jstr "app.py"), ("lineno", .jnum 10)]]

/-- A GitHub environment in which creating the branch ref fails. -/
def gitRefFail : GitEnv :=
  ⟨pstr "main", fun _ => .ok (pstr "headsha"), fun _ _ => .error .githubError,
   fun _ _ _ _ _ => .ok (), fun _ _ _ _ => .ok (pstr "prurl")⟩

/-- A run environment in which the guarded part of the file read (the
`get_contents` call) fails, while the repo lookup itself succeeds. -/
def envReadFail : AgentEnv :=
  ⟨.ok (.jlist [issueOne]), fun _ => .ok evGood,
   .ok (fun _ => .error .githubError),
   fun _ => .ok (pstr "EXPLANATION:\nwhy\nFIXED_CODE:\npass"), gitRefFail,
   pstr "20250101120000"⟩

/-- A run environment in which the unguarded `get_repo` lookup of
line 66 fails; two issues are listed to show the batch dies. -/
def envRepoFail : AgentEnv :=
  ⟨.ok (.jlist [issueOne, issueTwo]), fun _ => .ok evGood,
   .error .githubError,
   fun _ => .ok (pstr "EXPLANATION:\nwhy\nFIXED_CODE:\npass"), gitRefFail,
   pstr "20250101120000"⟩

/-- C9 counterexample: `github_client.get_repo(GITHUB_REPO)` at line 66
sits outside the `try/except`, so its failure (network, auth, bad
repository name) propagates out of `get_file_content`; and since the
call site at line 255 is also unguarded, that failure terminates the
batch instead of skipping the issue — the second issue in the list is
never processed. -/
theorem c9_counterexample :
    get_file_content (.error .githubError) (.jstr "app.py")
        = .error .githubError
    ∧ process_issues envRepoFail = ⟨[], some .githubError⟩ := ⟨rfl, rfl⟩

/-- C9 (amended): failures of the guarded read (`repo.get_contents` plus
base64 decode) are caught by the `try/except Exception` and become
`(None, None)`, and the orchestrator then skips the issue; but a failure
of the unguarded `github_client.get_repo` call at line 66 propagates out
of `get_file_content`, and — the call site at line 255 being outside the
per-issue guard — terminates the batch. -/
theorem c9_guarded_read_absent_unguarded_repo_raises :
    (∀ (readContents : JVal → Except PyExc (String × String)) (p : JVal),
      (∃ content sha, readContents p = .ok (content, sha)
        ∧ get_file_content (.ok readContents) p = .ok (some content, some sha))
      ∨ (∃ e, readContents p = .error e
        ∧ get_file_content (.ok readContents) p = .ok (none, none)))
    ∧ (∀ (e : PyExc) (p : JVal),
      get_file_content (.error e) p = .error e)
    ∧ (∀ (env : AgentEnv) (issue idv titlev ev : JVal) (ctx : StackContext)
        (fp : JVal) (readContents : JVal → Except PyExc (String × String))
        (e : PyExc),
      issue.subscript "id" = .ok idv →
      issue.subscript "title" = .ok titlev →
      env.details idv = .ok ev →
      extract_stack_context ev = .ok (some (ctx, fp)) →
      pyFalsy fp = false →
      env.getRepo = .ok readContents →
      readContents fp = .error e →
      processIssue env issue
        = .ok ([.detailFetch idv, .fileRead fp], .skippedFile))
    ∧ (∀ (env : AgentEnv) (issue idv titlev ev : JVal) (ctx : StackContext)
        (fp : JVal) (e : PyExc),
      issue.subscript "id" = .ok idv →
      issue.subscript "title" = .ok titlev →
      env.details idv = .ok ev →
      extract_stack_context ev = .ok (some (ctx, fp)) →
      pyFalsy fp = false →
      env.getRepo = .error e →
      processIssue env issue = .error e) := by
  refine ⟨?_, ?_, ?_, ?_⟩
  · intro readContents p
    cases hr : readContents p with
    | ok pr =>
      obtain ⟨content, sha⟩ := pr
      exact Or.inl ⟨content, sha, rfl, by simp [get_file_content, hr]⟩
    | error e =>
      exact Or.inr ⟨e, rfl, by simp [get_file_content, hr]⟩
  · intro e p
    rfl
  · intro env issue idv titlev ev ctx fp readContents e hid htitle hdet hext
      hfp hrepo hread
    simp only [processIssue, hid, htitle, hdet, hext, except_bind_ok]
    simp only [hfp, Bool.false_eq_true, if_false]
    simp only [get_file_content, hrepo, hread, except_bind_ok]
    rfl
  · intro env issue idv titlev ev ctx fp e hid htitle hdet hext hfp hrepo
    simp only [processIssue, hid, htitle, hdet, hext, except_bind_ok]
    simp only [hfp, Bool.false_eq_true, if_false]
    simp only [get_file_content, hrepo, except_bind_error]

/-- Witness for C9 (amended): a guarded read failure skips the issue,
while an unguarded repo-lookup failure raises out of the iteration. -/
theorem c9_guarded_read_absent_unguarded_repo_raises_witness :
    processIssue envReadFail issueOne
      = .ok ([.detailFetch (.jstr "1"), .fileRead (.jstr "app.py")],
          .skippedFile)
    ∧ processIssue envRepoFail issueOne = .error .githubError := by
  constructor
  · exact c9_guarded_read_absent_unguarded_repo_raises.2.2.1 envReadFail
      issueOne (.jstr "1") (.jstr "boom") evGood
      ⟨.jstr "app.py", .jnum 10, .jstr "", .jlist [], .jlist [], .jstr ""⟩
      (.jstr "app.py") (fun _ => .error .githubError) .githubError
      rfl rfl rfl rfl rfl rfl rfl
  · exact c9_guarded_read_absent_unguarded_repo_raises.2.2.2 envRepoFail
      issueOne (.jstr "1") (.jstr "boom") evGood
      ⟨.jstr "app.py", .jnum 10, .jstr "", .jlist [], .jlist [], .jstr ""⟩
      (.jstr "app.py") .githubError rfl rfl rfl rfl rfl rfl

/-- C10: when the deepest frame has a `lineno` but no `filename`, the
extractor still returns a context dict — with `file_path` equal to `None`
— and the orchestrator's `if not context_info or not file_path` check
then skips the issue: no file read, no model call, no publish attempt. -/
theorem c10_missing_filename_skips (env : AgentEnv) (issue idv titlev : JVal)
    (init : List JVal) (ln : Int)
    (hid : issue.subscript "id" = .ok idv)
    (htitle : issue.subscript "title" = .ok titlev)
    (hdet : env.details idv
      = .ok (mkFrameEvent (init ++ [.jobj [("lineno", .jnum ln)]]))) :
    extract_stack_context (mkFrameEvent (init ++ [.jobj [("lineno", .jnum ln)]]))
      = .ok (some (⟨.jnull, .jnum ln, .jstr "", .jlist [], .jlist [],
            .jstr ""⟩, .jnull))
    ∧ processIssue env issue = .ok ([.detailFetch idv], .skippedContext) := by
  have hext : extract_stack_context
      (mkFrameEvent (init ++ [.jobj [("lineno", .jnum ln)]]))
      = .ok (some (⟨.jnull, .jnum ln, .jstr "", .jlist [], .jlist [],
            .jstr ""⟩, .jnull)) := by
    have hidx := jindex_last init (JVal.jobj [("lineno", .jnum ln)])
    simp only [extract_stack_context, framesOf_mkFrameEvent, except_bind_ok,
      pyFalsy_concat, Bool.false_eq_true, if_false, hidx]
    rfl
  refine ⟨hext, ?_⟩
  simp only [processIssue, hid, htitle, hdet, hext, except_bind_ok]
  rfl

/-- An event whose only frame lacks the `filename` field. -/
def evNoFilename : JVal := mkFrameEvent [.jobj [("lineno", .jnum 10)]]

/-- A run environment whose event detail lacks a filename. -/
def envNoFilename : AgentEnv :=
  ⟨.ok (.jlist [issueOne]), fun _ => .ok evNoFilename,
   .ok (fun _ => .ok ("filetext", "sha1")),
   fun _ => .ok (pstr "EXPLANATION:\nwhy\nFIXED_CODE:\npass"), gitRefFail,
   pstr "20250101120000"⟩

/-- Witness for C10 at a concrete environment. -/
theorem c10_missing_filename_skips_witness :
    processIssue envNoFilename issueOne
      = .ok ([.detailFetch (.jstr "1")], .skippedContext) :=
  (c10_missing_filename_skips envNoFilename issueOne (.jstr "1")
    (.jstr "boom") [] 10 rfl rfl rfl).2

/-- A run environment in which fetching an issue's event detail raises
(`get_issue_details` gets a non-2xx and `raise_for_status` fires). -/
def envDetailFail : AgentEnv :=
  ⟨.ok (.jlist [issueOne, issueTwo]), fun _ => .error .httpError,
   .ok (fun _ => .ok ("filetext", "sha1")),
   fun _ => .ok (pstr "EXPLANATION:\nwhy\nFIXED_CODE:\npass"), gitRefFail,
   pstr "20250101120000"⟩

/-- C1 counterexample: with two issues in the list and the event-detail
fetch of the first raising an HTTP error, the whole batch aborts — no
issue completes an iteration and the second issue is never processed.
The raise from `get_issue_details` is not caught at the per-issue
boundary, so a per-issue error does terminate the batch. -/
theorem c1_counterexample :
    process_issues envDetailFail = ⟨[], some .httpError⟩ := rfl

/-- C1 (amended): the per-issue `try/except` protects only the
publishing stage.  When every stage up to publishing succeeds and the
publish call raises, the error is caught at the per-issue boundary (the
outcome is `prFailed`, not a propagated exception) and the batch
continues with the remaining issues.  Exceptions raised while fetching
event detail or extracting context, by contrast, propagate and terminate
the batch. -/
theorem c1_publish_error_isolated (env : AgentEnv) (issue : JVal)
    (rest : List JVal) (idv titlev plv ev : JVal) (ctx : StackContext)
    (fp : JVal) (readContents : JVal → Except PyExc (String × String))
    (content sha : String) (fix : FixResult) (e : PyExc)
    (hid : issue.subscript "id" = .ok idv)
    (htitle : issue.subscript "title" = .ok titlev)
    (hpl : issue.subscript "permalink" = .ok plv)
    (hdet : env.details idv = .ok ev)
    (hext : extract_stack_context ev = .ok (some (ctx, fp)))
    (hfp : pyFalsy fp = false)
    (hrepo : env.getRepo = .ok readContents)
    (hread : readContents fp = .ok (content, sha))
    (hcontent : ¬ content = "")
    (hfix : create_ai_fix env.modelGen titlev content ctx = .ok (some fix))
    (hpub : create_github_pr env.git env.now fp (some sha) fix.fixed_code
      ⟨idv, titlev, plv⟩ fix.explanation = .error e) :
    processIssue env issue
      = .ok ([.detailFetch idv, .fileRead fp, .modelCall, .publishAttempt],
          .prFailed e)
    ∧ runBatch env (issue :: rest)
      = ⟨(issue, [.detailFetch idv, .fileRead fp, .modelCall, .publishAttempt],
          .prFailed e) :: (runBatch env rest).processed,
         (runBatch env rest).aborted⟩ := by
  have h1 : processIssue env issue
      = .ok ([.detailFetch idv, .fileRead fp, .modelCall, .publishAttempt],
          .prFailed e) := by
    simp only [processIssue, hid, htitle, hdet, hext, except_bind_ok]
    simp only [hfp, Bool.false_eq_true, if_false]
    simp only [get_file_content, hrepo, hread, except_bind_ok]
    simp only [if_neg hcontent]
    simp only [hfix, except_bind_ok]
    simp only [hpl, except_bind_ok, hpub]
    rfl
  refine ⟨h1, ?_⟩
  simp only [runBatch, h1]

/-- A run environment in which every stage succeeds except creating the
branch ref during publishing. -/
def envPublishFail : AgentEnv :=
  ⟨.ok (.jlist [issueOne]), fun _ => .ok evGood,
   .ok (fun _ => .ok ("filetext", "sha1")),
   fun _ => .ok (pstr "EXPLANATION:\nwhy\nFIXED_CODE:\npass"), gitRefFail,
   pstr "20250101120000"⟩

/-- Witness for C1 (amended): a publish failure is contained as the
`prFailed` outcome of its own issue. -/
theorem c1_publish_error_isolated_witness :
    processIssue envPublishFail issueOne
      = .ok ([.detailFetch (.jstr "1"), .fileRead (.jstr "app.py"),
          .modelCall, .publishAttempt], .prFailed .githubError) :=
  (c1_publish_error_isolated envPublishFail issueOne [] (.jstr "1")
    (.jstr "boom") (.jstr "p1") evGood
    ⟨.jstr "app.py", .jnum 10, .jstr "", .jlist [], .jlist [], .jstr ""⟩
    (.jstr "app.py") (fun _ => .ok ("filetext", "sha1")) "filetext" "sha1"
    ⟨pstr "why", pstr "pass"⟩ .githubError
    rfl rfl rfl rfl rfl rfl rfl rfl (by decide) rfl rfl).1
